import Mathlib

/-!
Verification of the OuterControl access-policy engine.

The repository ships several snapshots of the same background engine.  We embed
the three that the specification talks about:

* `V3`  - the IndexedDB snapshot (part_005 lines 1-557): always-block social
  policy, work-hours streaming allowance with a single daily lunch flag, and a
  rate-limited Hacker News quota that auto-grants visits.
* `V4`  - the group-scoped snapshot (part_005 lines 558-1290): the streaming
  group shares one session key `"streaming"`, lunch sessions are counted with a
  cap, and evaluation is read-only.
* `FSA` - the chrome.storage/File-System-Access snapshot (part_005 lines
  1291-2240): same evaluator shape as `V3`, plus the coalescing save queue and
  the `getDomainGroup` matcher.

Wall-clock input is a `Clock` record bundling `Date.now()` together with the
local-calendar values (`getHours()`, `getDay()`, `getDateKey()`) that the code
derives from it.  JS objects are embedded as association lists with JS `Map`
update semantics (`setKey` replaces in place), JS timestamps as `Int`
milliseconds, and user-facing reason strings as the tagged type `Reason`
(locale-dependent formatting such as `toLocaleTimeString` is abstracted into
the payload of the tag).  Side effects (alarm scheduling, persistence) are
returned explicitly in the output records.
-/

namespace OuterControl

/-- `1000 * 60` - the `MIN` constant of lib/constants.js. -/
def MIN : Int := 60 * 1000

/-- `60 * MIN` - the `HOUR` constant of lib/constants.js. -/
def HOUR : Int := 60 * MIN

/-- Association-list lookup: JS property / `Map.get` access. -/
def lookupKey {α : Type} : List (String × α) → String → Option α
  | [], _ => none
  | (k', v) :: rest, k => if k' = k then some v else lookupKey rest k

/-- Association-list update with JS `Map.set` / property-assignment semantics:
an existing binding is replaced in place, otherwise the binding is appended. -/
def setKey {α : Type} : List (String × α) → String → α → List (String × α)
  | [], k, v => [(k, v)]
  | (k', v') :: rest, k, v =>
    if k' = k then (k, v) :: rest else (k', v') :: setKey rest k v

/-- JS `delete obj[k]`: removes the binding for `k`. -/
def eraseKey {α : Type} (l : List (String × α)) (k : String) : List (String × α) :=
  l.filter (fun p => p.1 ≠ k)

/-- Number of bindings an association list holds for a key. -/
def countKey {α : Type} (l : List (String × α)) (k : String) : Nat :=
  (l.filter (fun p => p.1 = k)).length

/-- A JS object never holds two bindings of the same key. -/
def keysNodup {α : Type} (l : List (String × α)) : Prop :=
  (l.map Prod.fst).Nodup

/-- JS `a || b` on object-valued operands. -/
def jsOr {α : Type} (a b : Option α) : Option α :=
  match a with
  | some x => some x
  | none => b

/-- JS truthiness of a number that may be absent (`0` is falsy). -/
def jsTruthyInt (o : Option Int) : Bool :=
  match o with
  | none => false
  | some x => x != 0

/-- JS truthiness of a boolean property that may be absent. -/
def jsTruthyBool (o : Option Bool) : Bool :=
  o.getD false

/-- `Math.min(...l)` for the nonempty lists the code applies it to. -/
def jsMinList : List Int → Int
  | [] => 0
  | h :: t => t.foldl min h

/-- JS `host.split(".")` on the character level. -/
def splitOnChar (c : Char) : List Char → List (List Char)
  | [] => [[]]
  | a :: rest =>
    match splitOnChar c rest with
    | [] => [[]]
    | w :: ws => if a = c then [] :: w :: ws else (a :: w) :: ws

/-- JS `host.split(".")`. -/
def splitDot (s : String) : List String :=
  (splitOnChar '.' s.data).map String.mk

/-- JS `parts.join(".")`. -/
def joinDot : List String → String
  | [] => ""
  | [s] => s
  | s :: rest => s ++ "." ++ joinDot rest

/-- JS `host.endsWith(suffix)`. -/
def jsEndsWith (s suffix : String) : Bool :=
  if suffix.data.length ≤ s.data.length then
    decide (s.data.drop (s.data.length - suffix.data.length) = suffix.data)
  else false

/-- The three policy groups of the static configuration table. -/
inductive Group where
  | social
  | streaming
  | hackerNews
deriving Repr, DecidableEq

/-- The duck-typed per-group rule payload.  Fields a snapshot's table does not
set are left at their zero defaults and are never read on reachable paths.
`workHours`/`lunchWindow` objects are flattened to start/end fields. -/
structure PolicyConfig where
  hosts : List String
  blockAlways : Bool := false
  workStart : Int := 0
  workEnd : Int := 0
  workDays : List Int := []
  lunchStart : Int := 0
  lunchEnd : Int := 0
  lunchDurationMs : Int := 0
  maxLunchSessions : Int := 0
  graceDurationMs : Int := 0
  eveningGraceDurationMs : Int := 0
  maxVisits : Int := 0
  windowMs : Int := 0
  visitDurationMs : Int := 0
deriving Repr, DecidableEq

/-- `buildDomainMap` of src/lib/domains.js: one map entry per listed domain. -/
def buildDomainMap (policies : List (Group × PolicyConfig)) :
    List (String × Group × PolicyConfig) :=
  policies.foldl (fun m gc => gc.2.hosts.foldl (fun m h => setKey m h gc) m) []

/-- `lookupGroup` of src/lib/domains.js: exact match first, then progressively
strip the leftmost label (`i` runs from 1 while `i < parts.length - 1`, so a
single-label suffix is never tried). -/
def lookupGroup {α : Type} (host : String) (m : List (String × α)) : Option α :=
  match lookupKey m host with
  | some v => some v
  | none =>
    let parts := splitDot host
    (List.range' 1 (parts.length - 2)).findSome? fun i =>
      lookupKey m (joinDot (parts.drop i))

/-- A session record: `{type, startedAt, expiresAt}`. -/
structure SessionRec where
  type : String
  startedAt : Int
  expiresAt : Int
deriving Repr, DecidableEq

/-- The session check `session && session.expiresAt > now` shared by every
snapshot: a record whose expiry is not strictly in the future is dead. -/
def liveSession (sess : Option SessionRec) (now : Int) : Option SessionRec :=
  match sess with
  | some s => if now < s.expiresAt then some s else none
  | none => none

/-- Tagged denial reasons; the user-facing strings (and their locale-dependent
time formatting) are abstracted into the constructor payloads. -/
inductive Reason where
  | alwaysBlocked
  | allowanceUsedLunch
  | allowanceExhausted
  | quotaExceeded (nextAllowedAt : Int)
  | eveningBlocked
  | workHoursBlocked
deriving Repr, DecidableEq

/-- The decision object returned by `evaluateAccess`; absent JS fields are
`none` (or `false` for the bare `lunchAvailable: true` flag). -/
structure Decision where
  allow : Bool
  group : Option Group := none
  remainingMs : Option Int := none
  allowanceRemaining : Option Int := none
  reason : Option Reason := none
  lunchAvailable : Bool := false
  lunchCount : Option Int := none
  maxLunchSessions : Option Int := none
  graceDurationMs : Option Int := none
deriving Repr, DecidableEq

/-- Wall-clock input: `Date.now()` plus the local-calendar values the code
reads from `new Date()` (`getHours()`, `getDay()`) and `getDateKey()`. -/
structure Clock where
  now : Int
  hour : Int
  day : Int
  today : String
deriving Repr, DecidableEq

namespace V3

/-- The `POLICIES.social` entry of the IndexedDB snapshot. -/
def socialConfig : PolicyConfig :=
  { hosts := ["reddit.com", "twitter.com", "x.com"],
    blockAlways := true,
    graceDurationMs := 5 * MIN }

/-- The `POLICIES.streaming` entry of the IndexedDB snapshot. -/
def streamingConfig : PolicyConfig :=
  { hosts := ["youtube.com", "disneyplus.com", "paramountplus.com", "max.com",
              "hbomax.com", "netflix.com"],
    workStart := 9, workEnd := 18,
    workDays := [1, 2, 3, 4, 5],
    lunchStart := 12, lunchEnd := 14,
    lunchDurationMs := 30 * MIN,
    graceDurationMs := 5 * MIN }

/-- The `POLICIES.hackerNews` entry of the IndexedDB snapshot. -/
def hackerNewsConfig : PolicyConfig :=
  { hosts := ["news.ycombinator.com"],
    maxVisits := 3,
    windowMs := 3 * HOUR,
    visitDurationMs := 5 * MIN,
    graceDurationMs := 5 * MIN }

/-- The static `POLICIES` table in its insertion order. -/
def POLICIES : List (Group × PolicyConfig) :=
  [(Group.social, socialConfig),
   (Group.streaming, streamingConfig),
   (Group.hackerNews, hackerNewsConfig)]

/-- `const domainMap = buildDomainMap(POLICIES)`. -/
def domainMap : List (String × Group × PolicyConfig) :=
  buildDomainMap POLICIES

/-- The mutable module state of the IndexedDB snapshot: `sessions`,
`quotas.hn`, `lunchUsed` (per day key), `streamingFirstAccess` (per day key). -/
structure State where
  sessions : List (String × SessionRec)
  hn : List Int
  lunchUsed : List (String × Bool)
  streamingFirstAccess : List (String × Int)
deriving Repr, DecidableEq

/-- Result of one `evaluateAccess` call: the decision, the state it leaves
behind, the `chrome.alarms.create` calls it issued (name, when), and whether it
called `saveState`. -/
structure EvalOut where
  decision : Decision
  state : State
  alarms : List (String × Int)
  saved : Bool
deriving Repr, DecidableEq

/-- The policy-specific part of `evaluateAccess` (everything after the active
session check fell through), part_005 lines 288-400. -/
def policyEval (st : State) (host : String) (c : Clock)
    (group : Group) (config : PolicyConfig) : EvalOut :=
  match group with
  | Group.social =>
    ⟨{ allow := false, group := some Group.social,
       reason := some Reason.alwaysBlocked,
       graceDurationMs := some config.graceDurationMs }, st, [], false⟩
  | Group.streaming =>
    if c.day ∈ config.workDays ∧ config.workStart ≤ c.hour ∧ c.hour < config.workEnd then
      let firstAccess := lookupKey st.streamingFirstAccess c.today
      if jsTruthyInt firstAccess then
        let fa := firstAccess.getD 0
        let timeSinceFirst := c.now - fa
        if HOUR ≤ timeSinceFirst then
          if config.lunchStart ≤ c.hour ∧ c.hour < config.lunchEnd ∧
              jsTruthyBool (lookupKey st.lunchUsed c.today) = false then
            ⟨{ allow := false, group := some Group.streaming,
               reason := some Reason.allowanceUsedLunch,
               lunchAvailable := true,
               graceDurationMs := some config.graceDurationMs }, st, [], false⟩
          else
            ⟨{ allow := false, group := some Group.streaming,
               reason := some Reason.allowanceExhausted,
               graceDurationMs := some config.graceDurationMs }, st, [], false⟩
        else
          ⟨{ allow := true, group := some Group.streaming,
             allowanceRemaining := some (HOUR - timeSinceFirst) }, st, [], false⟩
      else
        ⟨{ allow := true, group := some Group.streaming,
           allowanceRemaining := some HOUR },
         { st with streamingFirstAccess := setKey st.streamingFirstAccess c.today c.now },
         [], true⟩
    else
      ⟨{ allow := true, group := some Group.streaming }, st, [], false⟩
  | Group.hackerNews =>
    let pruned := st.hn.filter (fun t => c.now - t < config.windowMs)
    if (pruned.length : Int) < config.maxVisits then
      let expiresAt := c.now + config.visitDurationMs
      ⟨{ allow := true, group := some Group.hackerNews,
         remainingMs := some config.visitDurationMs },
       { st with
           sessions := setKey st.sessions host ⟨"hnVisit", c.now, expiresAt⟩,
           hn := pruned ++ [c.now] },
       [("session-" ++ host, expiresAt)], true⟩
    else
      ⟨{ allow := false, group := some Group.hackerNews,
         reason := some (Reason.quotaExceeded (jsMinList pruned + config.windowMs)),
         graceDurationMs := some config.graceDurationMs },
       { st with hn := pruned }, [], false⟩

/-- `evaluateAccess` of the IndexedDB snapshot (part_005 lines 269-401):
classify the host, honour a live session, else run the policy logic. -/
def evaluateAccess (st : State) (host : String) (c : Clock) : EvalOut :=
  match lookupGroup host domainMap with
  | none => ⟨{ allow := true }, st, [], false⟩
  | some (group, config) =>
    match liveSession (lookupKey st.sessions host) c.now with
    | some s =>
      ⟨{ allow := true, group := some group,
         remainingMs := some (s.expiresAt - c.now) }, st, [], false⟩
    | none => policyEval st host c group config

/-- Result of one `startSession` call. -/
structure StartOut where
  state : State
  alarms : List (String × Int)
  success : Bool
  expiresAt : Int
  saved : Bool
deriving Repr, DecidableEq

/-- `startSession` (part_005 lines 469-492; the FSA snapshot repeats it
verbatim at lines 1939-1962): unconditionally overwrite the host's session,
schedule the expiry alarm, update the type-specific counters, persist.
`today` is the `getDateKey()` value at call time. -/
def startSession (st : State) (host ty : String) (durationMs now : Int)
    (today : String) : StartOut :=
  let expiresAt := now + durationMs
  let st1 : State := { st with sessions := setKey st.sessions host ⟨ty, now, expiresAt⟩ }
  let st2 : State :=
    if ty = "lunch" then
      { st1 with lunchUsed := setKey st1.lunchUsed today true }
    else if ty = "hnVisit" then
      { st1 with hn := st1.hn ++ [now] }
    else st1
  ⟨st2, [("session-" ++ host, expiresAt)], true, expiresAt, true⟩

/-- The startup sweep of `loadState` (part_005 lines 145-151; repeated in the
other snapshots at lines 811-816 and 1450-1457): every persisted session with
`expiresAt < now` is deleted before the state goes live. -/
def sweepSessions (sessions : List (String × SessionRec)) (now : Int) :
    List (String × SessionRec) :=
  sessions.filter (fun p => ¬ p.2.expiresAt < now)

/-- Response sent by the `recordUsage` message handler. -/
structure RecordUsageOut where
  usageToday : List (String × Int)
  success : Bool
  error : Option String
deriving Repr, DecidableEq

/-- The `recordUsage` message handler (part_005 lines 502-523; the FSA snapshot
repeats it at lines 1972-1991): add `seconds * 1000` to the in-memory counter
for (today, host), then attempt a save.  `saveResult` is the outcome of the
`saveState()` promise: `none` on success, `some msg` when it rejected, in which
case the catch handler answers `{success: false, error}` - the counter update
happened before the save and is never rolled back. -/
def recordUsageHandler (usageToday : List (String × Int)) (host : String)
    (seconds : Int) (saveResult : Option String) : RecordUsageOut :=
  let milliseconds := seconds * 1000
  let updated := setKey usageToday host ((lookupKey usageToday host).getD 0 + milliseconds)
  match saveResult with
  | none => ⟨updated, true, none⟩
  | some e => ⟨updated, false, some e⟩

end V3

namespace V4

/-- The `POLICIES.social` entry of the group-scoped snapshot. -/
def socialConfig : PolicyConfig :=
  { hosts := ["reddit.com", "twitter.com", "x.com"],
    blockAlways := true,
    graceDurationMs := 5 * MIN }

/-- The `POLICIES.streaming` entry of the group-scoped snapshot. -/
def streamingConfig : PolicyConfig :=
  { hosts := ["youtube.com", "disneyplus.com", "paramountplus.com", "max.com",
              "hbomax.com", "netflix.com"],
    workStart := 9, workEnd := 17,
    workDays := [1, 2, 3, 4, 5],
    lunchStart := 11, lunchEnd := 15,
    lunchDurationMs := 45 * MIN,
    maxLunchSessions := 3,
    graceDurationMs := 5 * MIN,
    eveningGraceDurationMs := 30 * MIN }

/-- The `POLICIES.hackerNews` entry of the group-scoped snapshot (work-hours
rules, no visit quota). -/
def hackerNewsConfig : PolicyConfig :=
  { hosts := ["news.ycombinator.com"],
    workStart := 9, workEnd := 17,
    workDays := [1, 2, 3, 4, 5],
    graceDurationMs := 5 * MIN }

/-- The static `POLICIES` table in its insertion order. -/
def POLICIES : List (Group × PolicyConfig) :=
  [(Group.social, socialConfig),
   (Group.streaming, streamingConfig),
   (Group.hackerNews, hackerNewsConfig)]

/-- `const domainMap = buildDomainMap(POLICIES)`. -/
def domainMap : List (String × Group × PolicyConfig) :=
  buildDomainMap POLICIES

/-- A per-day per-host usage record of the group-scoped snapshot
(`ensureUsageObject` shape). -/
structure UsageRec where
  time : Int := 0
  views : Int := 0
  tempAccessCount : Int := 0
  lunchCount : Int := 0
  firstAccess : Option Int := none
  lastAccess : Option Int := none
deriving Repr, DecidableEq

/-- The state the group-scoped evaluator reads: `sessions` and the
`usage[dayKey][host]` records (which carry first-access times and the shared
`__lunch__` counter). -/
structure State where
  sessions : List (String × SessionRec)
  usage : List (String × List (String × UsageRec))
deriving Repr, DecidableEq

/-- `getGroupFirstAccess("streaming", today)` (part_005 lines 739-752):
earliest truthy `firstAccess` among today's records whose domain classifies to
the streaming group. -/
def getGroupFirstAccess (usageToday : List (String × UsageRec)) : Option Int :=
  usageToday.foldl
    (fun earliest entry =>
      match lookupGroup entry.1 domainMap with
      | some (Group.streaming, _) =>
        if jsTruthyInt entry.2.firstAccess then
          let fa := entry.2.firstAccess.getD 0
          match earliest with
          | none => some fa
          | some e => if fa < e then some fa else some e
        else earliest
      | _ => earliest)
    none

/-- `getTotalLunchCount(today)` (part_005 lines 754-757): the shared
`__lunch__` record's counter, 0 when absent. -/
def getTotalLunchCount (usageToday : List (String × UsageRec)) : Int :=
  match lookupKey usageToday "__lunch__" with
  | none => 0
  | some r => r.lunchCount

/-- The policy-specific part of the group-scoped `evaluateAccess` (part_005
lines 959-1063); it never mutates state, so it returns just the decision. -/
def policyEval (st : State) (c : Clock) (group : Group) (config : PolicyConfig) :
    Decision :=
  match group with
  | Group.social =>
    { allow := false, group := some Group.social,
      reason := some Reason.alwaysBlocked,
      graceDurationMs := some config.graceDurationMs }
  | Group.streaming =>
    let isWorkHours := c.day ∈ config.workDays ∧
      config.workStart ≤ c.hour ∧ c.hour < config.workEnd
    let isEveningHours := 21 ≤ c.hour ∨ c.hour < 2
    if ¬ isWorkHours ∧ ¬ isEveningHours then
      { allow := true, group := some Group.streaming }
    else if isEveningHours then
      { allow := false, group := some Group.streaming,
        reason := some Reason.eveningBlocked,
        graceDurationMs := some config.eveningGraceDurationMs }
    else
      let usageToday := (lookupKey st.usage c.today).getD []
      let firstAccess := getGroupFirstAccess usageToday
      if jsTruthyInt firstAccess then
        let fa := firstAccess.getD 0
        let timeSinceFirst := c.now - fa
        if HOUR ≤ timeSinceFirst then
          let totalLunchCount := getTotalLunchCount usageToday
          if config.lunchStart ≤ c.hour ∧ c.hour < config.lunchEnd ∧
              totalLunchCount < config.maxLunchSessions then
            { allow := false, group := some Group.streaming,
              reason := some Reason.allowanceUsedLunch,
              lunchAvailable := true,
              lunchCount := some totalLunchCount,
              maxLunchSessions := some config.maxLunchSessions,
              graceDurationMs := some config.graceDurationMs }
          else
            { allow := false, group := some Group.streaming,
              reason := some Reason.allowanceExhausted,
              lunchCount := some totalLunchCount,
              maxLunchSessions := some config.maxLunchSessions,
              graceDurationMs := some config.graceDurationMs }
        else
          { allow := true, group := some Group.streaming,
            allowanceRemaining := some (HOUR - timeSinceFirst) }
      else
        { allow := true, group := some Group.streaming,
          allowanceRemaining := some HOUR }
  | Group.hackerNews =>
    let isWorkHours := c.day ∈ config.workDays ∧
      config.workStart ≤ c.hour ∧ c.hour < config.workEnd
    let isEveningHours := 21 ≤ c.hour ∨ c.hour < 2
    if ¬ isWorkHours ∧ ¬ isEveningHours then
      { allow := true, group := some Group.hackerNews }
    else if isEveningHours then
      { allow := false, group := some Group.hackerNews,
        reason := some Reason.eveningBlocked,
        graceDurationMs := some config.graceDurationMs }
    else
      { allow := false, group := some Group.hackerNews,
        reason := some Reason.workHoursBlocked,
        graceDurationMs := some config.graceDurationMs }

/-- `evaluateAccess` of the group-scoped snapshot (part_005 lines 940-1064).
The session chosen by `sessions[host] || (group === "streaming" ?
sessions["streaming"] : null)` grants access when live; an expired entry under
the host itself still shadows the shared key. -/
def evaluateAccess (st : State) (host : String) (c : Clock) : Decision :=
  match lookupGroup host domainMap with
  | none => { allow := true }
  | some (group, config) =>
    let chosen := jsOr (lookupKey st.sessions host)
      (if group = Group.streaming then lookupKey st.sessions "streaming" else none)
    match liveSession chosen c.now with
    | some s =>
      { allow := true, group := some group,
        remainingMs := some (s.expiresAt - c.now) }
    | none => policyEval st c group config

/-- The session key rule of the group-scoped `startSession` (part_005 line
1143): lunch sessions live under the shared `"streaming"` key. -/
def sessionKeyFor (host ty : String) : String :=
  if ty = "lunch" then "streaming" else host

/-- Bump `usage[today]["__lunch__"].lunchCount`, creating the containers the
way the JS handler does. -/
def bumpLunchCount (usage : List (String × List (String × UsageRec)))
    (today : String) : List (String × List (String × UsageRec)) :=
  let dayMap := (lookupKey usage today).getD []
  let rec0 := (lookupKey dayMap "__lunch__").getD {}
  setKey usage today (setKey dayMap "__lunch__" { rec0 with lunchCount := rec0.lunchCount + 1 })

/-- Result of one group-scoped `startSession` call. -/
structure StartOut where
  state : State
  alarms : List (String × Int)
  success : Bool
  expiresAt : Int
  saved : Bool
deriving Repr, DecidableEq

/-- `startSession` of the group-scoped snapshot (part_005 lines 1139-1164):
store the session under `sessionKeyFor`, schedule `session-<key>`, count lunch
sessions in the shared `__lunch__` record, persist. -/
def startSession (st : State) (host ty : String) (durationMs now : Int)
    (today : String) : StartOut :=
  let expiresAt := now + durationMs
  let key := sessionKeyFor host ty
  let st1 : State := { st with sessions := setKey st.sessions key ⟨ty, now, expiresAt⟩ }
  let st2 : State :=
    if ty = "lunch" then { st1 with usage := bumpLunchCount st1.usage today } else st1
  ⟨st2, [("session-" ++ key, expiresAt)], true, expiresAt, true⟩

/-- Who the alarm handler notifies when a session alarm fires. -/
inductive NotifyTarget where
  | streamingGroup
  | host (h : String)
deriving Repr, DecidableEq

/-- The `session-` branch of the group-scoped alarm handler (part_005 lines
897-907): delete the session under the alarm's key, then notify every
streaming-group tab when the key is the shared `"streaming"` key, else only the
tabs of that single host. -/
def handleSessionAlarm (st : State) (sessionKey : String) : State × NotifyTarget :=
  ({ st with sessions := eraseKey st.sessions sessionKey },
   if sessionKey = "streaming" then NotifyTarget.streamingGroup
   else NotifyTarget.host sessionKey)

end V4

namespace FSA

/-- The `POLICIES.social` entry of the FSA snapshot (3-minute grace). -/
def socialConfig : PolicyConfig :=
  { hosts := ["reddit.com", "twitter.com", "x.com"],
    blockAlways := true,
    graceDurationMs := 3 * MIN }

/-- The `POLICIES.streaming` entry of the FSA snapshot. -/
def streamingConfig : PolicyConfig :=
  { hosts := ["youtube.com", "disneyplus.com", "paramountplus.com", "max.com",
              "hbomax.com", "netflix.com"],
    workStart := 9, workEnd := 18,
    workDays := [1, 2, 3, 4, 5],
    lunchStart := 12, lunchEnd := 14,
    lunchDurationMs := 30 * MIN,
    graceDurationMs := 5 * MIN }

/-- The `POLICIES.hackerNews` entry of the FSA snapshot. -/
def hackerNewsConfig : PolicyConfig :=
  { hosts := ["news.ycombinator.com"],
    maxVisits := 3,
    windowMs := 3 * HOUR,
    visitDurationMs := 5 * MIN,
    graceDurationMs := 5 * MIN }

/-- The static `POLICIES` table in its insertion order. -/
def POLICIES : List (Group × PolicyConfig) :=
  [(Group.social, socialConfig),
   (Group.streaming, streamingConfig),
   (Group.hackerNews, hackerNewsConfig)]

/-- `getDomainGroup` of the FSA snapshot (part_005 lines 1729-1738): scan the
policy table in insertion order, matching a host that equals a listed domain or
ends with `"." + domain`. -/
def getDomainGroup (host : String) : Option (Group × PolicyConfig) :=
  POLICIES.findSome? fun gc =>
    if gc.2.hosts.any (fun domain => host = domain || jsEndsWith host ("." ++ domain)) then
      some gc
    else none

/-- The save-serialization skeleton of the FSA `saveState` (part_005 lines
1501-1513 and 1597-1598): `isSaving` is the single mutual-exclusion flag,
`queuedTimers` counts pending `setTimeout` retries (the `saveQueue` slot),
`activeWrites` counts storage writes in progress. -/
structure SaveCtl where
  isSaving : Bool
  queuedTimers : Nat
  activeWrites : Nat
deriving Repr, DecidableEq

/-- Events of the save machinery: a `saveState()` call, completion of the
in-progress write (the `finally` clause), and the queued timer firing. -/
inductive SaveEv where
  | call
  | writeDone
  | timerFire
deriving Repr, DecidableEq

/-- One event-loop step of the save machinery.  A call during a write queues a
retry only when the `saveQueue` slot is empty (lines 1503-1511); otherwise it
starts a write.  `writeDone` is the `finally { isSaving = false }`.  The timer
clears its slot and re-enters `saveState` (lines 1505-1508). -/
def saveStep (s : SaveCtl) : SaveEv → SaveCtl
  | SaveEv.call =>
    if s.isSaving then
      { s with queuedTimers := if s.queuedTimers = 0 then 1 else s.queuedTimers }
    else
      { s with isSaving := true, activeWrites := s.activeWrites + 1 }
  | SaveEv.writeDone =>
    if s.isSaving then
      { s with isSaving := false, activeWrites := s.activeWrites - 1 }
    else s
  | SaveEv.timerFire =>
    if s.queuedTimers = 0 then s
    else
      let s1 := { s with queuedTimers := s.queuedTimers - 1 }
      if s1.isSaving then
        { s1 with queuedTimers := if s1.queuedTimers = 0 then 1 else s1.queuedTimers }
      else
        { s1 with isSaving := true, activeWrites := s1.activeWrites + 1 }

/-- The initial save-machinery state: no write in progress, no queued retry. -/
def saveInit : SaveCtl := ⟨false, 0, 0⟩

/-- Run the save machinery over a sequence of events. -/
def saveRun (evs : List SaveEv) : SaveCtl :=
  evs.foldl saveStep saveInit

/-- The serialization invariant: at most one write in progress (and exactly
when the flag is set), and at most one trailing retry pending. -/
def SaveInv (s : SaveCtl) : Prop :=
  s.activeWrites ≤ 1 ∧ s.queuedTimers ≤ 1 ∧ (s.isSaving = true ↔ s.activeWrites = 1)

end FSA

/-! ### Association-list lemmas -/

theorem lookupKey_setKey_self {α : Type} (l : List (String × α)) (k : String) (v : α) :
    lookupKey (setKey l k v) k = some v := by
  induction l with
  | nil => simp [setKey, lookupKey]
  | cons hd tl ih =>
    obtain ⟨k', v'⟩ := hd
    by_cases h : k' = k
    · simp [setKey, h, lookupKey]
    · simp [setKey, h, lookupKey, ih]

theorem lookupKey_setKey_ne {α : Type} (l : List (String × α)) (k k' : String) (v : α)
    (h : k' ≠ k) : lookupKey (setKey l k v) k' = lookupKey l k' := by
  induction l with
  | nil =>
    simp only [setKey, lookupKey]
    rw [if_neg (fun hh => h hh.symm)]
  | cons hd tl ih =>
    obtain ⟨a, b⟩ := hd
    by_cases ha : a = k
    · subst ha
      simp only [setKey, if_pos rfl, lookupKey]
      rw [if_neg (fun hh => h hh.symm), if_neg (fun hh => h hh.symm)]
    · simp only [setKey, if_neg ha, lookupKey]
      by_cases ha' : a = k'
      · rw [if_pos ha', if_pos ha']
      · rw [if_neg ha', if_neg ha', ih]

theorem lookupKey_eraseKey_self {α : Type} (l : List (String × α)) (k : String) :
    lookupKey (eraseKey l k) k = none := by
  induction l with
  | nil => simp [eraseKey, lookupKey]
  | cons hd tl ih =>
    obtain ⟨a, b⟩ := hd
    by_cases ha : a = k
    · simpa [eraseKey, List.filter_cons, ha] using ih
    · simpa [eraseKey, List.filter_cons, ha, lookupKey] using ih

theorem findSomeExists {α β : Type} (l : List α) (f : α → Option β) (v : β)
    (h : l.findSome? f = some v) : ∃ a, a ∈ l ∧ f a = some v := by
  induction l with
  | nil => simp [List.findSome?] at h
  | cons hd tl ih =>
    cases hfa : f hd with
    | some b =>
      refine ⟨hd, List.mem_cons_self _ _, ?_⟩
      rw [hfa]
      simpa [List.findSome?, hfa] using h
    | none =>
      obtain ⟨a, ha, hfa'⟩ := ih (by simpa [List.findSome?, hfa] using h)
      exact ⟨a, List.mem_cons_of_mem _ ha, hfa'⟩

theorem lookupKey_filter_prop {α : Type} (p : String × α → Bool) (l : List (String × α))
    (k : String) (v : α) (h : lookupKey (l.filter p) k = some v) : p (k, v) = true := by
  induction l with
  | nil => simp [lookupKey] at h
  | cons hd tl ih =>
    rw [List.filter_cons] at h
    by_cases hp : p hd
    · rw [if_pos hp] at h
      obtain ⟨k', v'⟩ := hd
      simp only [lookupKey] at h
      by_cases hk : k' = k
      · rw [if_pos hk] at h
        injection h with hv
        subst hv
        subst hk
        exact hp
      · rw [if_neg hk] at h
        exact ih h
    · rw [if_neg (by simpa using hp)] at h
      exact ih h

theorem lookupKey_filter_keep {α : Type} (p : String × α → Bool) (l : List (String × α))
    (k : String) (v : α) (h1 : lookupKey l k = some v) (h2 : p (k, v) = true) :
    lookupKey (l.filter p) k = some v := by
  induction l with
  | nil => simp [lookupKey] at h1
  | cons hd tl ih =>
    obtain ⟨k', v'⟩ := hd
    simp only [lookupKey] at h1
    rw [List.filter_cons]
    by_cases hk : k' = k
    · rw [if_pos hk] at h1
      injection h1 with hv
      subst hv
      subst hk
      rw [if_pos h2]
      simp [lookupKey]
    · rw [if_neg hk] at h1
      by_cases hp : p (k', v')
      · rw [if_pos (by simpa using hp)]
        simp only [lookupKey]
        rw [if_neg hk]
        exact ih h1
      · rw [if_neg (by simpa using hp)]
        exact ih h1

theorem countKey_eq_zero {α : Type} (l : List (String × α)) (k : String)
    (h : k ∉ l.map Prod.fst) : countKey l k = 0 := by
  induction l with
  | nil => simp [countKey]
  | cons hd tl ih =>
    obtain ⟨k', v'⟩ := hd
    simp only [List.map_cons, List.mem_cons, not_or] at h
    have hne : ¬ k' = k := fun hh => h.1 hh.symm
    simp only [countKey, List.filter_cons]
    rw [if_neg (by simpa using hne)]
    exact ih h.2

theorem countKey_setKey_self {α : Type} (l : List (String × α)) (k : String) (v : α)
    (h : keysNodup l) : countKey (setKey l k v) k = 1 := by
  induction l with
  | nil => simp [setKey, countKey, List.filter_cons]
  | cons hd tl ih =>
    obtain ⟨k', v'⟩ := hd
    simp only [keysNodup, List.map_cons, List.nodup_cons] at h
    by_cases hk : k' = k
    · subst hk
      simp only [setKey, if_pos rfl, countKey, List.filter_cons]
      rw [if_pos (by simp)]
      have : countKey tl k' = 0 := countKey_eq_zero tl k' h.1
      simpa [countKey] using this
    · simp only [setKey, if_neg hk, countKey, List.filter_cons]
      rw [if_neg (by simpa using hk)]
      exact ih h.2

theorem keys_setKey_sub {α : Type} (l : List (String × α)) (k : String) (v : α)
    (x : String) (h : x ∈ (setKey l k v).map Prod.fst) :
    x = k ∨ x ∈ l.map Prod.fst := by
  induction l with
  | nil =>
    simp only [setKey, List.map_cons, List.map_nil, List.mem_cons,
      List.not_mem_nil, or_false] at h
    exact Or.inl h
  | cons hd tl ih =>
    obtain ⟨k', v'⟩ := hd
    by_cases hk : k' = k
    · subst hk
      have hs : setKey ((k', v') :: tl) k' v = (k', v) :: tl := by simp [setKey]
      rw [hs] at h
      simp only [List.map_cons, List.mem_cons] at h ⊢
      tauto
    · simp only [setKey, if_neg hk, List.map_cons, List.mem_cons] at h
      simp only [List.map_cons, List.mem_cons]
      rcases h with h | h
      · tauto
      · rcases ih h with h' | h'
        · exact Or.inl h'
        · exact Or.inr (Or.inr h')

theorem keysNodup_setKey {α : Type} (l : List (String × α)) (k : String) (v : α)
    (h : keysNodup l) : keysNodup (setKey l k v) := by
  induction l with
  | nil => simp [keysNodup, setKey]
  | cons hd tl ih =>
    obtain ⟨k', v'⟩ := hd
    simp only [keysNodup, List.map_cons, List.nodup_cons] at h
    by_cases hk : k' = k
    · subst hk
      simpa [keysNodup, setKey] using h
    · have htl := ih h.2
      simp only [keysNodup, setKey, if_neg hk, List.map_cons, List.nodup_cons]
      refine ⟨fun hmem => ?_, htl⟩
      rcases keys_setKey_sub tl k v k' hmem with h' | h'
      · exact hk h'
      · exact h.1 h'

/-! ### Save-machinery lemmas -/

theorem SaveInv_mk (a : Bool) (b c : Nat) :
    FSA.SaveInv ⟨a, b, c⟩ ↔ (c ≤ 1 ∧ b ≤ 1 ∧ (a = true ↔ c = 1)) :=
  Iff.rfl

theorem saveStep_preserves_inv (s : FSA.SaveCtl) (e : FSA.SaveEv)
    (h : FSA.SaveInv s) : FSA.SaveInv (FSA.saveStep s e) := by
  obtain ⟨sv, q, w⟩ := s
  rw [SaveInv_mk] at h
  obtain ⟨h1, h2, h3⟩ := h
  cases e with
  | call =>
    cases sv with
    | true =>
      have hstep : FSA.saveStep ⟨true, q, w⟩ FSA.SaveEv.call
          = ⟨true, if q = 0 then 1 else q, w⟩ := rfl
      rw [hstep, SaveInv_mk]
      refine ⟨h1, ?_, h3⟩
      split_ifs <;> omega
    | false =>
      have hw : w = 0 := by
        by_contra hne
        exact absurd (h3.mpr (by omega)) (by simp)
      have hstep : FSA.saveStep ⟨false, q, w⟩ FSA.SaveEv.call = ⟨true, q, w + 1⟩ := rfl
      rw [hstep, SaveInv_mk]
      exact ⟨by omega, h2, by simp [hw]⟩
  | writeDone =>
    cases sv with
    | true =>
      have hw : w = 1 := h3.mp rfl
      have hstep : FSA.saveStep ⟨true, q, w⟩ FSA.SaveEv.writeDone = ⟨false, q, w - 1⟩ := rfl
      rw [hstep, SaveInv_mk]
      exact ⟨by omega, h2, by simp [hw]⟩
    | false =>
      have hstep : FSA.saveStep ⟨false, q, w⟩ FSA.SaveEv.writeDone = ⟨false, q, w⟩ := rfl
      rw [hstep, SaveInv_mk]
      exact ⟨h1, h2, h3⟩
  | timerFire =>
    by_cases hq : q = 0
    · subst hq
      have hstep : FSA.saveStep ⟨sv, 0, w⟩ FSA.SaveEv.timerFire = ⟨sv, 0, w⟩ := rfl
      rw [hstep, SaveInv_mk]
      exact ⟨h1, h2, h3⟩
    · have hq1 : q = 1 := by omega
      subst hq1
      cases sv with
      | true =>
        have hstep : FSA.saveStep ⟨true, 1, w⟩ FSA.SaveEv.timerFire = ⟨true, 1, w⟩ := rfl
        rw [hstep, SaveInv_mk]
        exact ⟨h1, h2, h3⟩
      | false =>
        have hw : w = 0 := by
          by_contra hne
          exact absurd (h3.mpr (by omega)) (by simp)
        have hstep : FSA.saveStep ⟨false, 1, w⟩ FSA.SaveEv.timerFire
            = ⟨true, 0, w + 1⟩ := rfl
        rw [hstep, SaveInv_mk]
        exact ⟨by omega, by omega, by simp [hw]⟩

theorem saveRun_step_inv (evs : List FSA.SaveEv) :
    ∀ s : FSA.SaveCtl, FSA.SaveInv s → FSA.SaveInv (evs.foldl FSA.saveStep s) := by
  induction evs with
  | nil => intro s hs; simpa [List.foldl] using hs
  | cons e rest ih =>
    intro s hs
    exact ih _ (saveStep_preserves_inv s e hs)

/-! ### Claim theorems -/

/-- C5: a host that matches no policy group is allowed unconditionally, for
every state and clock, with no state mutation, no alarm and no save - in both
the IndexedDB evaluator and the group-scoped evaluator. -/
theorem C5_unmatched_host_always_allowed :
    (∀ (st : V3.State) (host : String) (c : Clock),
        lookupGroup host V3.domainMap = none →
          V3.evaluateAccess st host c = ⟨{ allow := true }, st, [], false⟩)
    ∧ (∀ (st : V4.State) (host : String) (c : Clock),
        lookupGroup host V4.domainMap = none →
          V4.evaluateAccess st host c = { allow := true }) := by
  constructor
  · intro st host c h
    simp [V3.evaluateAccess, h]
  · intro st host c h
    simp [V4.evaluateAccess, h]

/-- C5 witness: the concrete host `example.com` is unrestricted. -/
theorem C5_unmatched_host_always_allowed_witness :
    V3.evaluateAccess ⟨[], [], [], []⟩ "example.com" ⟨0, 0, 0, "2025-01-01"⟩
      = ⟨{ allow := true }, ⟨[], [], [], []⟩, [], false⟩ :=
  C5_unmatched_host_always_allowed.1 ⟨[], [], [], []⟩ "example.com"
    ⟨0, 0, 0, "2025-01-01"⟩ (by decide)

/-- C7: the startup sweep of `loadState` keeps exactly the persisted sessions
whose expiry is not strictly before the load-time `now`; hence immediately
after load every session in the active set satisfies `now ≤ expiresAt`, and
sessions that were not expired survive the sweep unchanged. -/
theorem C7_load_sweeps_expired_sessions :
    (∀ (sessions : List (String × SessionRec)) (now : Int) (p : String × SessionRec),
        p ∈ V3.sweepSessions sessions now ↔ p ∈ sessions ∧ ¬ p.2.expiresAt < now)
    ∧ (∀ (sessions : List (String × SessionRec)) (now : Int) (k : String) (s : SessionRec),
        lookupKey (V3.sweepSessions sessions now) k = some s → now ≤ s.expiresAt)
    ∧ (∀ (sessions : List (String × SessionRec)) (now : Int) (k : String) (s : SessionRec),
        lookupKey sessions k = some s → now ≤ s.expiresAt →
          lookupKey (V3.sweepSessions sessions now) k = some s) := by
  refine ⟨?_, ?_, ?_⟩
  · intro sessions now p
    simp [V3.sweepSessions, List.mem_filter]
  · intro sessions now k s h
    have := lookupKey_filter_prop _ sessions k s h
    simpa [not_lt] using this
  · intro sessions now k s h1 h2
    exact lookupKey_filter_keep _ sessions k s h1 (by simpa [not_lt] using h2)

/-- C7 witness: sweeping a state holding one expired and one live session at
`now = 100` leaves the live one and satisfies the sweep theorem. -/
theorem C7_load_sweeps_expired_sessions_witness :
    (100 : Int) ≤ 150 ∧
      lookupKey (V3.sweepSessions
        [("reddit.com", ⟨"grace", 0, 50⟩), ("x.com", ⟨"grace", 0, 150⟩)] 100) "x.com"
        = some ⟨"grace", 0, 150⟩ :=
  ⟨by decide,
   C7_load_sweeps_expired_sessions.2.2
     [("reddit.com", ⟨"grace", 0, 50⟩), ("x.com", ⟨"grace", 0, 150⟩)] 100 "x.com"
     ⟨"grace", 0, 150⟩ (by decide) (by decide)⟩

/-- C8: when the save issued by the `recordUsage` handler fails, the caller
receives `{success: false, error}` and the in-memory counter for (today, host)
still holds the accumulated delta - the handler updates the counter before
saving and never rolls it back, so the usage map is the same one a successful
save would have persisted. -/
theorem C8_recordUsage_failure_keeps_delta :
    ∀ (u : List (String × Int)) (host : String) (seconds : Int) (e : String),
      (V3.recordUsageHandler u host seconds (some e)).success = false
      ∧ (V3.recordUsageHandler u host seconds (some e)).error = some e
      ∧ lookupKey (V3.recordUsageHandler u host seconds (some e)).usageToday host
          = some ((lookupKey u host).getD 0 + seconds * 1000)
      ∧ (V3.recordUsageHandler u host seconds (some e)).usageToday
          = (V3.recordUsageHandler u host seconds none).usageToday := by
  intro u host seconds e
  refine ⟨rfl, rfl, ?_, rfl⟩
  simp [V3.recordUsageHandler, lookupKey_setKey_self]

/-- C9: the save machinery of the FSA snapshot keeps at most one storage write
in progress (exactly when the `isSaving` flag is set) and at most one trailing
retry queued, from the initial state across any event sequence; and when the
queued retry fires after the in-progress write finished, it starts the next
write and leaves the queue empty. -/
theorem C9_save_serialization :
    (∀ evs : List FSA.SaveEv, FSA.SaveInv (FSA.saveRun evs))
    ∧ (∀ s : FSA.SaveCtl, FSA.SaveInv s → s.isSaving = false → s.queuedTimers = 1 →
        FSA.saveStep s FSA.SaveEv.timerFire = ⟨true, 0, 1⟩) := by
  constructor
  · intro evs
    exact saveRun_step_inv evs FSA.saveInit ((SaveInv_mk false 0 0).mpr (by decide))
  · intro s hinv hsv hq
    obtain ⟨sv, q, w⟩ := s
    rw [SaveInv_mk] at hinv
    obtain ⟨h1, h2, h3⟩ := hinv
    simp only at hsv hq
    subst hsv
    subst hq
    have hw : w = 0 := by
      by_contra hne
      have hw1 : w = 1 := by omega
      exact absurd (h3.mpr hw1) (by simp)
    subst hw
    decide

/-- C9 witness: a call racing an in-progress write is coalesced - two calls,
completion, then the timer produce exactly one trailing write. -/
theorem C9_save_serialization_witness :
    FSA.SaveInv (FSA.saveRun
      [FSA.SaveEv.call, FSA.SaveEv.call, FSA.SaveEv.call, FSA.SaveEv.writeDone])
    ∧ FSA.saveStep ⟨false, 1, 0⟩ FSA.SaveEv.timerFire = ⟨true, 0, 1⟩ :=
  ⟨C9_save_serialization.1
     [FSA.SaveEv.call, FSA.SaveEv.call, FSA.SaveEv.call, FSA.SaveEv.writeDone],
   C9_save_serialization.2 ⟨false, 1, 0⟩ ((SaveInv_mk false 1 0).mpr (by decide)) rfl rfl⟩

/-- C4: domain matching.  Exact table matches win immediately; any successful
lookup is either an exact match or comes from stripping at least one leftmost
label while keeping at least two labels (`1 ≤ i ≤ parts.length - 2`), so a
single-label suffix is never matched; and the concrete examples behave as the
spec requires, on both `lookupGroup` and the FSA snapshot's `getDomainGroup`. -/
theorem C4_domain_matching :
    (lookupGroup "www.reddit.com" V3.domainMap = some (Group.social, V3.socialConfig)
      ∧ lookupGroup "reddit.com" V3.domainMap = some (Group.social, V3.socialConfig)
      ∧ lookupGroup "evilreddit.com" V3.domainMap = none)
    ∧ (FSA.getDomainGroup "www.reddit.com" = some (Group.social, FSA.socialConfig)
      ∧ FSA.getDomainGroup "reddit.com" = some (Group.social, FSA.socialConfig)
      ∧ FSA.getDomainGroup "evilreddit.com" = none)
    ∧ (∀ (host : String) (v : Group × PolicyConfig),
        lookupKey V3.domainMap host = some v → lookupGroup host V3.domainMap = some v)
    ∧ (∀ (host : String) (v : Group × PolicyConfig),
        lookupGroup host V3.domainMap = some v →
          lookupKey V3.domainMap host = some v ∨
          ∃ i, 1 ≤ i ∧ i ≤ (splitDot host).length - 2 ∧
            lookupKey V3.domainMap (joinDot ((splitDot host).drop i)) = some v) := by
  refine ⟨⟨by decide, by decide, by decide⟩, ⟨by decide, by decide, by decide⟩, ?_, ?_⟩
  · intro host v h
    unfold lookupGroup
    rw [h]
  · intro host v h
    unfold lookupGroup at h
    cases hx : lookupKey V3.domainMap host with
    | some w =>
      rw [hx] at h
      exact Or.inl h
    | none =>
      rw [hx] at h
      right
      obtain ⟨i, hi, hfi⟩ := findSomeExists _ _ _ h
      rw [List.mem_range'_1] at hi
      exact ⟨i, hi.1, by omega, hfi⟩

/-- C4 witness: the exact-match-first conjunct applied to the concrete host
`news.ycombinator.com`. -/
theorem C4_domain_matching_witness :
    lookupGroup "news.ycombinator.com" V3.domainMap
      = some (Group.hackerNews, V3.hackerNewsConfig) :=
  C4_domain_matching.2.2.1 "news.ycombinator.com" (Group.hackerNews, V3.hackerNewsConfig)
    (by decide)

/-- C6: `startSession` is idempotent by overwrite.  Starting a `"grace"`
session of 300000 ms twice for the same host leaves exactly one session entry
for that host, carrying the second call's start and expiry, and both calls
report success with their own `now + 300000`. -/
theorem C6_startSession_overwrites :
    ∀ (st : V3.State) (h : String) (now1 now2 : Int) (d1 d2 : String),
      keysNodup st.sessions →
      (V3.startSession st h "grace" 300000 now1 d1).success = true
      ∧ (V3.startSession st h "grace" 300000 now1 d1).expiresAt = now1 + 300000
      ∧ (V3.startSession (V3.startSession st h "grace" 300000 now1 d1).state
          h "grace" 300000 now2 d2).success = true
      ∧ (V3.startSession (V3.startSession st h "grace" 300000 now1 d1).state
          h "grace" 300000 now2 d2).expiresAt = now2 + 300000
      ∧ lookupKey (V3.startSession (V3.startSession st h "grace" 300000 now1 d1).state
          h "grace" 300000 now2 d2).state.sessions h = some ⟨"grace", now2, now2 + 300000⟩
      ∧ countKey (V3.startSession (V3.startSession st h "grace" 300000 now1 d1).state
          h "grace" 300000 now2 d2).state.sessions h = 1 := by
  intro st h now1 now2 d1 d2 hnd
  have hsess1 : (V3.startSession st h "grace" 300000 now1 d1).state.sessions
      = setKey st.sessions h ⟨"grace", now1, now1 + 300000⟩ := by
    simp [V3.startSession]
  have hsess2 : (V3.startSession (V3.startSession st h "grace" 300000 now1 d1).state
      h "grace" 300000 now2 d2).state.sessions
      = setKey (setKey st.sessions h ⟨"grace", now1, now1 + 300000⟩) h
          ⟨"grace", now2, now2 + 300000⟩ := by
    simp [V3.startSession]
  refine ⟨rfl, rfl, rfl, rfl, ?_, ?_⟩
  · rw [hsess2]
    exact lookupKey_setKey_self _ _ _
  · rw [hsess2]
    exact countKey_setKey_self _ _ _ (keysNodup_setKey _ _ _ hnd)

/-- C6 witness: two grace sessions for `reddit.com` from the empty state. -/
theorem C6_startSession_overwrites_witness :
    lookupKey (V3.startSession (V3.startSession ⟨[], [], [], []⟩
        "reddit.com" "grace" 300000 1000 "2025-01-01").state
        "reddit.com" "grace" 300000 2000 "2025-01-01").state.sessions "reddit.com"
      = some ⟨"grace", 2000, 302000⟩
    ∧ countKey (V3.startSession (V3.startSession ⟨[], [], [], []⟩
        "reddit.com" "grace" 300000 1000 "2025-01-01").state
        "reddit.com" "grace" 300000 2000 "2025-01-01").state.sessions "reddit.com" = 1 := by
  have h := C6_startSession_overwrites ⟨[], [], [], []⟩ "reddit.com" 1000 2000
    "2025-01-01" "2025-01-01" (by simp [keysNodup])
  exact ⟨h.2.2.2.2.1, h.2.2.2.2.2⟩

/-- C2: the Hacker News quota policy.  With no live session, evaluation first
prunes quota timestamps older than the window; below the visit limit it starts
a `hnVisit` session for the host, pushes `now` into the window, schedules the
expiry alarm, saves, and allows with `remainingMs = visitDurationMs`; at or
above the limit it denies with the reset time `oldestVisit + windowMs` (state
keeps only the pruned window, nothing is saved). -/
theorem C2_hackerNews_quota :
    ∀ (st : V3.State) (host : String) (c : Clock) (cfg : PolicyConfig),
      lookupGroup host V3.domainMap = some (Group.hackerNews, cfg) →
      liveSession (lookupKey st.sessions host) c.now = none →
      ((((st.hn.filter (fun t => c.now - t < cfg.windowMs)).length : Int) < cfg.maxVisits →
        V3.evaluateAccess st host c =
          ⟨{ allow := true, group := some Group.hackerNews,
             remainingMs := some cfg.visitDurationMs },
           { st with
               sessions := setKey st.sessions host
                 ⟨"hnVisit", c.now, c.now + cfg.visitDurationMs⟩,
               hn := st.hn.filter (fun t => c.now - t < cfg.windowMs) ++ [c.now] },
           [("session-" ++ host, c.now + cfg.visitDurationMs)], true⟩)
       ∧ (cfg.maxVisits ≤ ((st.hn.filter (fun t => c.now - t < cfg.windowMs)).length : Int) →
        V3.evaluateAccess st host c =
          ⟨{ allow := false, group := some Group.hackerNews,
             reason := some (Reason.quotaExceeded
               (jsMinList (st.hn.filter (fun t => c.now - t < cfg.windowMs)) + cfg.windowMs)),
             graceDurationMs := some cfg.graceDurationMs },
           { st with hn := st.hn.filter (fun t => c.now - t < cfg.windowMs) }, [], false⟩)) := by
  intro st host c cfg h1 h2
  have hev : V3.evaluateAccess st host c = V3.policyEval st host c Group.hackerNews cfg := by
    unfold V3.evaluateAccess
    rw [h1, h2]
  constructor
  · intro hlt
    rw [hev]
    unfold V3.policyEval
    dsimp only
    rw [if_pos hlt]
  · intro hge
    rw [hev]
    unfold V3.policyEval
    dsimp only
    rw [if_neg (not_lt.mpr hge)]

/-- C2 witness: the fourth visit inside the window is denied with the reset
time of the oldest visit plus the window span. -/
theorem C2_hackerNews_quota_witness :
    V3.evaluateAccess ⟨[], [1000, 2000, 3000], [], []⟩ "news.ycombinator.com"
        ⟨10000, 10, 1, "2025-01-06"⟩ =
      ⟨{ allow := false, group := some Group.hackerNews,
         reason := some (Reason.quotaExceeded (1000 + 3 * HOUR)),
         graceDurationMs := some (5 * MIN) },
       ⟨[], [1000, 2000, 3000], [], []⟩, [], false⟩ := by
  have h := (C2_hackerNews_quota ⟨[], [1000, 2000, 3000], [], []⟩ "news.ycombinator.com"
    ⟨10000, 10, 1, "2025-01-06"⟩ V3.hackerNewsConfig (by decide) (by decide)).2 (by decide)
  rw [h]
  decide

/-- C3: the streaming work-hours allowance.  During work hours with no live
session: with no first-access timestamp recorded for today, evaluation records
`firstAccess = now`, saves, and allows with the full one-hour allowance; with
`now - firstAccess < 1h` it allows with the remaining allowance and no
mutation; with `now - firstAccess ≥ 1h` it denies, leaving state untouched,
and carries `lunchAvailable = true` exactly when the hour lies in the lunch
window and today's lunch allowance is still unused (the IndexedDB snapshot
caps lunch sessions at one per day via the `lunchUsed` flag). -/
theorem C3_streaming_allowance :
    ∀ (st : V3.State) (host : String) (c : Clock) (cfg : PolicyConfig),
      lookupGroup host V3.domainMap = some (Group.streaming, cfg) →
      liveSession (lookupKey st.sessions host) c.now = none →
      c.day ∈ cfg.workDays → cfg.workStart ≤ c.hour → c.hour < cfg.workEnd →
      ((lookupKey st.streamingFirstAccess c.today = none →
          V3.evaluateAccess st host c =
            ⟨{ allow := true, group := some Group.streaming,
               allowanceRemaining := some HOUR },
             { st with streamingFirstAccess := setKey st.streamingFirstAccess c.today c.now },
             [], true⟩)
       ∧ (∀ fa : Int, lookupKey st.streamingFirstAccess c.today = some fa → fa ≠ 0 →
            c.now - fa < HOUR →
            V3.evaluateAccess st host c =
              ⟨{ allow := true, group := some Group.streaming,
                 allowanceRemaining := some (HOUR - (c.now - fa)) }, st, [], false⟩)
       ∧ (∀ fa : Int, lookupKey st.streamingFirstAccess c.today = some fa → fa ≠ 0 →
            HOUR ≤ c.now - fa →
            ((V3.evaluateAccess st host c).decision.allow = false
             ∧ (V3.evaluateAccess st host c).state = st
             ∧ (V3.evaluateAccess st host c).saved = false
             ∧ ((V3.evaluateAccess st host c).decision.lunchAvailable = true ↔
                 (cfg.lunchStart ≤ c.hour ∧ c.hour < cfg.lunchEnd ∧
                  jsTruthyBool (lookupKey st.lunchUsed c.today) = false))))) := by
  intro st host c cfg h1 h2 hd hs he
  have hev : V3.evaluateAccess st host c = V3.policyEval st host c Group.streaming cfg := by
    unfold V3.evaluateAccess
    rw [h1, h2]
  refine ⟨?_, ?_, ?_⟩
  · intro hfa
    rw [hev]
    unfold V3.policyEval
    dsimp only
    rw [if_pos ⟨hd, hs, he⟩, hfa]
    simp [jsTruthyInt]
  · intro fa hfa hfa0 hlt
    rw [hev]
    unfold V3.policyEval
    dsimp only
    rw [if_pos ⟨hd, hs, he⟩, hfa]
    have htr : jsTruthyInt (some fa) = true := by simp [jsTruthyInt, hfa0]
    rw [if_pos htr]
    dsimp only [Option.getD]
    rw [if_neg (not_le.mpr hlt)]
  · intro fa hfa hfa0 hge
    have htr : jsTruthyInt (some fa) = true := by simp [jsTruthyInt, hfa0]
    by_cases hl : cfg.lunchStart ≤ c.hour ∧ c.hour < cfg.lunchEnd ∧
        jsTruthyBool (lookupKey st.lunchUsed c.today) = false
    · have heq : V3.evaluateAccess st host c =
          ⟨{ allow := false, group := some Group.streaming,
             reason := some Reason.allowanceUsedLunch,
             lunchAvailable := true,
             graceDurationMs := some cfg.graceDurationMs }, st, [], false⟩ := by
        rw [hev]
        unfold V3.policyEval
        dsimp only
        rw [if_pos ⟨hd, hs, he⟩, hfa, if_pos htr]
        dsimp only [Option.getD]
        rw [if_pos hge, if_pos hl]
      rw [heq]
      simpa using hl
    · have heq : V3.evaluateAccess st host c =
          ⟨{ allow := false, group := some Group.streaming,
             reason := some Reason.allowanceExhausted,
             graceDurationMs := some cfg.graceDurationMs }, st, [], false⟩ := by
        rw [hev]
        unfold V3.policyEval
        dsimp only
        rw [if_pos ⟨hd, hs, he⟩, hfa, if_pos htr]
        dsimp only [Option.getD]
        rw [if_pos hge, if_neg hl]
      rw [heq]
      simpa using hl

/-- C3 witness: the first work-hours access of the day records the timestamp,
persists, and allows the full hour. -/
theorem C3_streaming_allowance_witness :
    V3.evaluateAccess ⟨[], [], [], []⟩ "netflix.com" ⟨5000, 10, 1, "2025-01-06"⟩ =
      ⟨{ allow := true, group := some Group.streaming, allowanceRemaining := some HOUR },
       ⟨[], [], [], [("2025-01-06", 5000)]⟩, [], true⟩ := by
  have h := (C3_streaming_allowance ⟨[], [], [], []⟩ "netflix.com"
    ⟨5000, 10, 1, "2025-01-06"⟩ V3.streamingConfig (by decide) (by decide)
    (by decide) (by decide) (by decide)).1 (by decide)
  rw [h]
  decide

/-- C1 counterexample: in the group-scoped snapshot the claim fails.  Here
`youtube.com` is a classified streaming host and a session exists under the
shared `"streaming"` key with expiry strictly greater than `now` (9 hours
left), yet `evaluateAccess` denies: the expired host-keyed entry for
`youtube.com` is picked by `sessions[host] || sessions["streaming"]` before
expiry is checked, so it shadows the live shared grant instead of being
treated as absent. -/
theorem C1_counterexample :
    lookupGroup "youtube.com" V4.domainMap = some (Group.streaming, V4.streamingConfig)
    ∧ lookupKey [("youtube.com", (⟨"grace", 0, 5⟩ : SessionRec)),
        ("streaming", ⟨"lunch", 0, 36000000⟩)] "streaming" = some ⟨"lunch", 0, 36000000⟩
    ∧ ((3600001 : Int) < 36000000)
    ∧ (V4.evaluateAccess
        ⟨[("youtube.com", ⟨"grace", 0, 5⟩), ("streaming", ⟨"lunch", 0, 36000000⟩)],
         [("2025-01-06", [("netflix.com", { firstAccess := some 1 })])]⟩
        "youtube.com" ⟨3600001, 10, 1, "2025-01-06"⟩).allow = false := by
  decide

/-- C1 (amended): a live session under the host key always wins, in both
snapshots, with `remainingMs = expiresAt - now`; in the group-scoped snapshot
the shared `"streaming"` key is consulted only when the host has no session
entry of its own; and a session whose expiry is at or before `now` never
grants access through the session check - evaluation falls through to the
policy logic exactly as if the chosen session were absent. -/
theorem C1_active_session_wins :
    (∀ (st : V3.State) (host : String) (c : Clock) (g : Group) (cfg : PolicyConfig)
        (s : SessionRec),
        lookupGroup host V3.domainMap = some (g, cfg) →
        lookupKey st.sessions host = some s → c.now < s.expiresAt →
          V3.evaluateAccess st host c =
            ⟨{ allow := true, group := some g,
               remainingMs := some (s.expiresAt - c.now) }, st, [], false⟩)
    ∧ (∀ (st : V3.State) (host : String) (c : Clock) (g : Group) (cfg : PolicyConfig)
        (s : SessionRec),
        lookupGroup host V3.domainMap = some (g, cfg) →
        lookupKey st.sessions host = some s → s.expiresAt ≤ c.now →
          V3.evaluateAccess st host c = V3.policyEval st host c g cfg)
    ∧ (∀ (st : V4.State) (host : String) (c : Clock) (g : Group) (cfg : PolicyConfig)
        (s : SessionRec),
        lookupGroup host V4.domainMap = some (g, cfg) →
        lookupKey st.sessions host = some s → c.now < s.expiresAt →
          V4.evaluateAccess st host c =
            { allow := true, group := some g,
              remainingMs := some (s.expiresAt - c.now) })
    ∧ (∀ (st : V4.State) (host : String) (c : Clock) (cfg : PolicyConfig)
        (s : SessionRec),
        lookupGroup host V4.domainMap = some (Group.streaming, cfg) →
        lookupKey st.sessions host = none →
        lookupKey st.sessions "streaming" = some s → c.now < s.expiresAt →
          V4.evaluateAccess st host c =
            { allow := true, group := some Group.streaming,
              remainingMs := some (s.expiresAt - c.now) })
    ∧ (∀ (st : V4.State) (host : String) (c : Clock) (g : Group) (cfg : PolicyConfig)
        (s : SessionRec),
        lookupGroup host V4.domainMap = some (g, cfg) →
        jsOr (lookupKey st.sessions host)
          (if g = Group.streaming then lookupKey st.sessions "streaming" else none)
          = some s →
        s.expiresAt ≤ c.now →
          V4.evaluateAccess st host c = V4.policyEval st c g cfg) := by
  refine ⟨?_, ?_, ?_, ?_, ?_⟩
  · intro st host c g cfg s h1 h2 h3
    unfold V3.evaluateAccess
    rw [h1]
    simp [liveSession, h2, h3]
  · intro st host c g cfg s h1 h2 h3
    unfold V3.evaluateAccess
    rw [h1]
    simp [liveSession, h2, not_lt.mpr h3]
  · intro st host c g cfg s h1 h2 h3
    unfold V4.evaluateAccess
    rw [h1]
    simp [jsOr, liveSession, h2, h3]
  · intro st host c cfg s h1 h2 h3 h4
    unfold V4.evaluateAccess
    rw [h1]
    simp [jsOr, liveSession, h2, h3, h4]
  · intro st host c g cfg s h1 h2 h3
    unfold V4.evaluateAccess
    rw [h1]
    dsimp only
    rw [h2]
    simp [liveSession, not_lt.mpr h3]

/-- C1 witness: a live 200 ms grace session on `reddit.com` wins over the
always-block rule. -/
theorem C1_active_session_wins_witness :
    V3.evaluateAccess ⟨[("reddit.com", ⟨"grace", 0, 300⟩)], [], [], []⟩ "reddit.com"
        ⟨100, 10, 1, "2025-01-06"⟩ =
      ⟨{ allow := true, group := some Group.social, remainingMs := some 200 },
       ⟨[("reddit.com", ⟨"grace", 0, 300⟩)], [], [], []⟩, [], false⟩ :=
  C1_active_session_wins.1 ⟨[("reddit.com", ⟨"grace", 0, 300⟩)], [], [], []⟩ "reddit.com"
    ⟨100, 10, 1, "2025-01-06"⟩ Group.social V3.socialConfig ⟨"grace", 0, 300⟩
    (by decide) (by decide) (by decide)

/-- C10 counterexample: a single lunch grant does not make `evaluateAccess`
allow every streaming host while it is live.  After granting a lunch session
(from `max.com`, stored under `"streaming"`, expiring at 9900000), evaluation
for `netflix.com` at `now = 7260000` - inside the grant - still denies, because
the leftover expired host-keyed entry for `netflix.com` shadows the shared
`"streaming"` entry in `sessions[host] || sessions["streaming"]`. -/
theorem C10_counterexample :
    lookupKey (V4.startSession
        ⟨[("netflix.com", ⟨"grace", 0, 10⟩)],
         [("2025-01-07", [("youtube.com", { firstAccess := some 5 })])]⟩
        "max.com" "lunch" 2700000 7200000 "2025-01-07").state.sessions "streaming"
      = some ⟨"lunch", 7200000, 9900000⟩
    ∧ ((7260000 : Int) < 9900000)
    ∧ lookupGroup "netflix.com" V4.domainMap = some (Group.streaming, V4.streamingConfig)
    ∧ (V4.evaluateAccess (V4.startSession
        ⟨[("netflix.com", ⟨"grace", 0, 10⟩)],
         [("2025-01-07", [("youtube.com", { firstAccess := some 5 })])]⟩
        "max.com" "lunch" 2700000 7200000 "2025-01-07").state
        "netflix.com" ⟨7260000, 10, 2, "2025-01-07"⟩).allow = false := by
  decide

/-- C10 (amended): a `startSession` of type `"lunch"` stores the session under
the shared `"streaming"` key and schedules `session-streaming`; while it is
live, `evaluateAccess` allows every streaming-group host that has no session
entry of its own (a leftover host-keyed entry - even an expired one - shadows
the shared key); the fired `session-streaming` alarm deletes the shared entry
and notifies all streaming tabs, while any other key notifies only that host;
and every non-lunch session type is keyed by the requesting host. -/
theorem C10_lunch_session_group_scope :
    (∀ (st : V4.State) (h : String) (d now : Int) (today : String),
        V4.sessionKeyFor h "lunch" = "streaming"
        ∧ (V4.startSession st h "lunch" d now today).alarms
            = [("session-streaming", now + d)]
        ∧ lookupKey (V4.startSession st h "lunch" d now today).state.sessions "streaming"
            = some ⟨"lunch", now, now + d⟩)
    ∧ (∀ (ty : String), ty ≠ "lunch" →
        ∀ (st : V4.State) (h : String) (d now : Int) (today : String),
          V4.sessionKeyFor h ty = h
          ∧ lookupKey (V4.startSession st h ty d now today).state.sessions h
              = some ⟨ty, now, now + d⟩)
    ∧ (∀ (st : V4.State) (h : String) (d now : Int) (today : String)
        (g : String) (cfg : PolicyConfig) (c : Clock),
        lookupGroup g V4.domainMap = some (Group.streaming, cfg) →
        lookupKey st.sessions g = none →
        c.now < now + d →
          V4.evaluateAccess (V4.startSession st h "lunch" d now today).state g c =
            { allow := true, group := some Group.streaming,
              remainingMs := some (now + d - c.now) })
    ∧ (∀ st : V4.State,
        V4.handleSessionAlarm st "streaming"
          = ({ st with sessions := eraseKey st.sessions "streaming" },
             V4.NotifyTarget.streamingGroup))
    ∧ (∀ (st : V4.State) (k : String), k ≠ "streaming" →
        (V4.handleSessionAlarm st k).2 = V4.NotifyTarget.host k) := by
  refine ⟨?_, ?_, ?_, ?_, ?_⟩
  · intro st h d now today
    refine ⟨rfl, rfl, ?_⟩
    have hkey : V4.sessionKeyFor h "lunch" = "streaming" := rfl
    show lookupKey (setKey st.sessions (V4.sessionKeyFor h "lunch")
      ⟨"lunch", now, now + d⟩) "streaming" = some ⟨"lunch", now, now + d⟩
    rw [hkey]
    exact lookupKey_setKey_self _ _ _
  · intro ty hty st h d now today
    have hkey : V4.sessionKeyFor h ty = h := by
      unfold V4.sessionKeyFor
      rw [if_neg hty]
    refine ⟨hkey, ?_⟩
    show lookupKey (V4.startSession st h ty d now today).state.sessions h
      = some ⟨ty, now, now + d⟩
    unfold V4.startSession
    dsimp only
    rw [hkey]
    by_cases hl : ty = "lunch"
    · exact absurd hl hty
    · rw [if_neg hl]
      exact lookupKey_setKey_self _ _ _
  · intro st h d now today g cfg c hg hnone hlive
    have hgs : g ≠ "streaming" := by
      intro hEq
      rw [hEq] at hg
      have hnostream : lookupGroup "streaming" V4.domainMap
          = (none : Option (Group × PolicyConfig)) := by decide
      rw [hnostream] at hg
      exact Option.noConfusion hg
    have hsess : (V4.startSession st h "lunch" d now today).state.sessions
        = setKey st.sessions "streaming" ⟨"lunch", now, now + d⟩ := rfl
    unfold V4.evaluateAccess
    rw [hg]
    dsimp only
    rw [hsess, lookupKey_setKey_ne _ _ _ _ hgs, hnone]
    simp [jsOr, liveSession, lookupKey_setKey_self, hlive]
  · intro st
    rfl
  · intro st k hk
    unfold V4.handleSessionAlarm
    rw [if_neg hk]

/-- C10 witness: a lunch grant issued from `youtube.com` opens `netflix.com`
for the remaining grant time. -/
theorem C10_lunch_session_group_scope_witness :
    V4.evaluateAccess (V4.startSession ⟨[], []⟩ "youtube.com" "lunch" 2700000 0
        "2025-01-07").state "netflix.com" ⟨100, 10, 2, "2025-01-07"⟩ =
      { allow := true, group := some Group.streaming, remainingMs := some 2699900 } :=
  C10_lunch_session_group_scope.2.2.1 ⟨[], []⟩ "youtube.com" 2700000 0 "2025-01-07"
    "netflix.com" V4.streamingConfig ⟨100, 10, 2, "2025-01-07"⟩
    (by decide) (by decide) (by decide)

end OuterControl
